import Mathlib

/-!
Verification of the poker-solver decision pipeline.

Shallow embedding of the Python sources under `src/`:
`src/core/pot_odds.py`, `src/core/hand_evaluator.py`,
`src/core/equity_calculator.py`, `src/strategy/preflop_charts.py`,
`src/strategy/range_analysis.py`, `src/strategy/gto_advisor.py`.

Modelling conventions:
- Python floats are modelled as exact rationals (ℚ).  Every numeric fact
  proved or refuted below is rounding-robust: the values involved are far
  apart (e.g. −49 versus 0), so the float/rational gap cannot change any
  verdict.
- Python sets of hand strings are modelled as `List String`; the set
  iteration order that Python's `sorted` sees is made explicit as the list
  order.  `sorted(..., key=...)` (a stable sort) is modelled by a stable
  insertion sort.
- treys card integers are modelled as distinct naturals `0..51`
  (rank-major, suit-minor, matching the rank-major order of
  `Deck.GetFullDeck`); all uses in the embedded code are equality and
  membership tests, so only distinctness and order of the full deck matter.
- The treys hand evaluator (an external library dependency, not part of
  this repository) is threaded through the embedding as an explicit
  evaluation-function parameter `evalFn`/`fiveEval`; its dispatch-by-size
  behaviour, which the repository code relies on, is embedded explicitly.
- Python's implicit module-level `random` generator is modelled as an
  explicit state `GlobalRng`: a stream of shuffle outcomes and choice
  indices together with a step counter.  Each consuming call advances the
  counter, exactly as each call to `random.shuffle`/`random.choice`
  advances the hidden global Mersenne-Twister state.
- Exceptions are modelled with `Except`; code paths that can only raise
  (`ZeroDivisionError` on an empty tally) are noted in comments where the
  modelled function instead returns the junk value 0.
-/

/-! ## Core enumerations (src/strategy/range_analysis.py, preflop_charts.py) -/

/-- Street enum (range_analysis.py lines 15-20). -/
inductive Street where
  | preflop
  | flop
  | turn
  | river
deriving DecidableEq, Repr

/-- ActionType enum (range_analysis.py lines 23-30). -/
inductive ActionType where
  | fold
  | check
  | call
  | bet
  | raise_
  | all_in
deriving DecidableEq, Repr

/-- Position enum, 6-max (preflop_charts.py lines 13-20). -/
inductive Position where
  | utg
  | hj
  | co
  | btn
  | sb
  | bb
deriving DecidableEq, Repr

/-- PlayerAction dataclass (range_analysis.py lines 33-51).
`amount` and `pot_size` are `Optional[float]`. -/
structure PlayerAction where
  street : Street
  action_type : ActionType
  amount : Option ℚ := none
  pot_size : Option ℚ := none
deriving DecidableEq, Repr

/-- `PlayerAction.bet_size_ratio` property (range_analysis.py lines 46-51):
`if self.amount and self.pot_size and self.pot_size > 0: amount / pot_size
else None`.  Python truthiness: a value of `0` is falsy, so a zero amount
or zero pot also yields `None`.  (Source field name `bet_size_ratio`.) -/
def PlayerAction.betSizeFrac (a : PlayerAction) : Option ℚ :=
  match a.amount, a.pot_size with
  | some amt, some pot =>
      if amt ≠ 0 ∧ pot ≠ 0 ∧ pot > 0 then some (amt / pot) else none
  | _, _ => none

/-- PlayerProfile dataclass (range_analysis.py lines 54-88); stats as
rationals. -/
structure PlayerProfile where
  vpip : ℚ := 25
  pfr : ℚ := 18
  aggression : ℚ := 2
  three_bet : ℚ := 7
  fold_to_3bet : ℚ := 55
  cbet : ℚ := 65
  fold_to_cbet : ℚ := 45
deriving DecidableEq, Repr

/-! ## PotOddsCalculator (src/core/pot_odds.py) -/

/-- `PotOddsCalculator.calculate_pot_odds` (pot_odds.py lines 42-57).
Returns the pot odds as a percentage; `0.0` when `call_amount <= 0`.
(When `pot_size + call_amount = 0` with a positive call Python raises
`ZeroDivisionError`; ℚ division then yields the junk value 0 here.) -/
def calculate_pot_odds (pot_size call_amount : ℚ) : ℚ :=
  if call_amount ≤ 0 then 0
  else call_amount / (pot_size + call_amount) * 100

/-- `PotOddsCalculator.calculate_required_equity` (pot_odds.py lines 59-66):
identical to the pot odds (breakeven point). -/
def calculate_required_equity (pot_size call_amount : ℚ) : ℚ :=
  calculate_pot_odds pot_size call_amount

/-- `PotOddsCalculator.calculate_ev` (pot_odds.py lines 68-100).
NOTE: `equity` is on a 0-100 percent scale (`equity_decimal = equity/100`). -/
def calculate_ev (equity pot_size call_amount : ℚ)
    (include_call_in_pot : Bool) : ℚ :=
  let equity_decimal := equity / 100
  let win_amount := if include_call_in_pot then pot_size
                    else pot_size + call_amount
  equity_decimal * win_amount - (1 - equity_decimal) * call_amount

/-- PotOddsResult dataclass (pot_odds.py lines 20-27). -/
structure PotOddsResult where
  pot_odds : ℚ
  required_equity : ℚ
  current_equity : Option ℚ := none
  ev : Option ℚ := none
  is_profitable_call : Option Bool := none
deriving DecidableEq, Repr

/-- `PotOddsCalculator.analyze` (pot_odds.py lines 160-193). -/
def analyze (pot_size call_amount : ℚ) (current_equity : Option ℚ) :
    PotOddsResult :=
  let pot_odds := calculate_pot_odds pot_size call_amount
  let required_equity := calculate_required_equity pot_size call_amount
  match current_equity with
  | none =>
      { pot_odds := pot_odds, required_equity := required_equity,
        current_equity := none, ev := none, is_profitable_call := none }
  | some eq_ =>
      { pot_odds := pot_odds, required_equity := required_equity,
        current_equity := some eq_,
        ev := some (calculate_ev eq_ pot_size call_amount false),
        is_profitable_call := some (decide (required_equity ≤ eq_)) }

/-! ## HandEvaluator (src/core/hand_evaluator.py) -/

/-- `HandEvaluator.get_rank_percentage` (hand_evaluator.py lines 91-98):
`(max_score - score + 1) / max_score * 100` with `max_score = 7462`. -/
def get_rank_percentage (score : ℚ) : ℚ :=
  (7462 - score + 1) / 7462 * 100

/-- Error taxonomy for hand evaluation.  `invalidHandShape` and
`invalidCardSet` are the spec's error classes (spec section 7); no code in
the repository ever raises them.  `keyError` models the Python `KeyError`
raised inside the treys library (`hand_size_map[len(all_cards)]`) when the
total card count is not 5, 6 or 7. -/
inductive EvalError where
  | invalidHandShape
  | invalidCardSet
  | keyError
deriving DecidableEq, Repr

deriving instance DecidableEq for Except

/-- The treys `Evaluator.evaluate` dispatch (external library dependency):
`all_cards = cards + board; return self.hand_size_map[len(all_cards)](all_cards)`
with `hand_size_map = {5: _five, 6: _six, 7: _seven}`.  `_six`/`_seven`
take the minimum `_five` score over all 5-card subsets, starting from the
worst score 7462.  The 5-card table lookup `_five` is threaded through as
the parameter `fiveEval`. -/
def treys_evaluate (fiveEval : List ℕ → ℕ) (cards board : List ℕ) :
    Except EvalError ℕ :=
  let all_cards := cards ++ board
  if all_cards.length = 5 then
    Except.ok (fiveEval all_cards)
  else if all_cards.length = 6 ∨ all_cards.length = 7 then
    Except.ok (((all_cards.sublists.filter (fun c => c.length = 5)).map
      fiveEval).foldl min 7462)
  else
    Except.error EvalError.keyError

/-- `HandEvaluator.evaluate` (hand_evaluator.py lines 60-71): the body is
exactly `return self.evaluator.evaluate(board, hole_cards)` — a direct
delegation to the treys evaluator with no validation of its own. -/
def HandEvaluator.evaluate (fiveEval : List ℕ → ℕ)
    (hole_cards board : List ℕ) : Except EvalError ℕ :=
  treys_evaluate fiveEval board hole_cards

/-! ## RangeAnalyzer hand-strength ranking (range_analysis.py lines 129-161) -/

/-- Premium tier of `_generate_hand_rankings` (range_analysis.py line 136). -/
def premium_ranked : List String :=
  ["AA", "KK", "QQ", "AKs", "JJ", "AKo", "AQs", "TT", "AQo", "AJs"]

/-- Strong tier of `_generate_hand_rankings` (range_analysis.py lines 142-143). -/
def strong_ranked : List String :=
  ["99", "ATs", "AJo", "KQs", "88", "KJs", "ATo", "A9s", "KQo", "77",
   "KTs", "A8s", "QJs", "A5s", "66", "A7s", "KJo", "A4s", "A9o", "QTs"]

/-- Medium tier of `_generate_hand_rankings` (range_analysis.py lines 149-151). -/
def medium_ranked : List String :=
  ["A6s", "55", "A3s", "KTo", "JTs", "QJo", "A8o", "A2s", "K9s", "44",
   "A7o", "K8s", "A5o", "Q9s", "J9s", "QTo", "33", "A6o", "K7s", "A4o",
   "JTo", "T9s", "K9o", "A3o", "K6s", "22", "Q8s", "K5s", "A2o", "J8s"]

/-- The ranking table in insertion order: ranks 1..60 are assigned by
position; `_generate_hand_rankings` increments `rank` across the three
tiers in this exact order. -/
def all_ranked_hands : List String :=
  premium_ranked ++ strong_ranked ++ medium_ranked

/-- `RangeAnalyzer.get_hand_strength_rank` (range_analysis.py lines 159-161):
dictionary lookup with default 100. -/
def get_hand_strength_rank (hand : String) : ℕ :=
  match all_ranked_hands.findIdx? (fun h => h == hand) with
  | some i => i + 1
  | none => 100

/-! ## Hand / RangeEstimate (preflop_charts.py lines 33-69,
range_analysis.py lines 91-117) -/

/-- `Hand` dataclass (preflop_charts.py lines 33-69). -/
structure PyHand where
  card1 : Char
  card2 : Char
  suited : Bool
deriving DecidableEq, Repr

/-- `Hand.from_string` (preflop_charts.py lines 40-55): two characters
give a pocket pair shape (suited=False), three characters read the
suitedness flag; anything else raises `ValueError`. -/
def PyHand.from_string (hand_str : String) : Except String PyHand :=
  match hand_str.toList with
  | [a, b] => Except.ok ⟨a, b, false⟩
  | [a, b, c] => Except.ok ⟨a, b, c.toLower == 's'⟩
  | _ => Except.error "Invalid hand format"

/-- `RangeEstimate._count_combos` (range_analysis.py lines 101-112):
pair = 6 combos, suited = 4, offsuit = 12, summed over the set.
An invalid hand string makes Python raise `ValueError` out of
`Hand.from_string`; modelled as `Except.error`. -/
def count_combos : List String → Except String ℕ
  | [] => Except.ok 0
  | h :: t => do
      let ph ← PyHand.from_string h
      let rest ← count_combos t
      pure ((if ph.card1 = ph.card2 then 6 else if ph.suited then 4 else 12)
        + rest)

/-- `RangeEstimate` dataclass (range_analysis.py lines 91-117).  The
`combos` field is computed eagerly from `hands` in `__post_init__`; it is
modelled as the derived view `RangeEstimate.combos` below, which is the
same pure function of `hands`. -/
structure RangeEstimate where
  hands : List String
deriving DecidableEq, Repr

/-- Derived `combos` field of `RangeEstimate` (range_analysis.py lines
98-112). -/
def RangeEstimate.combos (r : RangeEstimate) : Except String ℕ :=
  count_combos r.hands

/-! ## RangeAnalyzer range updates (range_analysis.py lines 194-331) -/

/-- One step of a stable ascending insertion by strength rank: the new
element goes after all existing elements of smaller-or-equal key. -/
def insert_by_rank (x : String) : List String → List String
  | [] => [x]
  | y :: ys =>
      if get_hand_strength_rank y ≤ get_hand_strength_rank x then
        y :: insert_by_rank x ys
      else x :: y :: ys

/-- Python's stable `sorted(range_hands, key=get_hand_strength_rank)`
(range_analysis.py line 314), modelled as a stable insertion sort over the
explicit iteration order of the set. -/
def sort_by_rank (xs : List String) : List String :=
  xs.foldl (fun acc x => insert_by_rank x acc) []

/-- `RangeAnalyzer._filter_top_percentage` (range_analysis.py lines
312-316): keep the first `max(1, int(len * percentage))` hands of the
rank-sorted list.  Python's `int` truncates toward zero; every call site
passes a percentage in (0, 1/2], where this is the floor. -/
def filter_top_percentage (range_hands : List String) (percentage : ℚ) :
    List String :=
  let sorted_hands := sort_by_rank range_hands
  let target_size := max 1 (⌊(range_hands.length : ℚ) * percentage⌋).toNat
  sorted_hands.take target_size

/-- The suited-ace bluff test of `_update_preflop_range` (range_analysis.py
lines 247-248): `h.endswith('s') and h[0] == 'A' and h[1] in '5432'`.
Python's short-circuit `and` never indexes out of bounds here (a string
ending in 's' is non-empty, and `h[1]` is only reached when `h[0]` is 'A'
and the string ends in 's', hence has length at least 2). -/
def is_suited_ace_bluff (h : String) : Bool :=
  let cs := h.toList
  (cs.getLast? == some 's') && (cs.head? == some 'A') &&
    (['5', '4', '3', '2'].contains (cs.getD 1 ' '))

/-- The strength-band filters of `_update_preflop_range`
(range_analysis.py lines 234-257), one per action kind:
CALL keeps the medium band `10 < rank < 50`; RAISE/BET keeps the union of
the top band `rank <= 30` and the suited-ace bluffs (on the list model the
union of two filters of the same list is the single filter by the
disjunction); ALL_IN keeps the premium band `rank <= 15`. -/
def preflop_band_filter (t : ActionType) (current_range : List String) :
    List String :=
  match t with
  | ActionType.call => current_range.filter (fun h =>
      decide (10 < get_hand_strength_rank h ∧ get_hand_strength_rank h < 50))
  | ActionType.raise_ | ActionType.bet => current_range.filter (fun h =>
      decide (get_hand_strength_rank h ≤ 30) || is_suited_ace_bluff h)
  | ActionType.all_in => current_range.filter (fun h =>
      decide (get_hand_strength_rank h ≤ 15))
  | _ => current_range

/-- `RangeAnalyzer._update_preflop_range` (range_analysis.py lines 222-259).
Every non-fold branch follows the same `X if X else current_range`
pattern: the band filter result when non-empty, otherwise the unchanged
input range. -/
def update_preflop_range (current_range : List String)
    (action : PlayerAction) (_position : Position)
    (_profile : Option PlayerProfile) : RangeEstimate :=
  if action.action_type = ActionType.fold then ⟨[]⟩
  else if action.action_type = ActionType.call ∨
      action.action_type = ActionType.raise_ ∨
      action.action_type = ActionType.bet ∨
      action.action_type = ActionType.all_in then
    let band := preflop_band_filter action.action_type current_range
    ⟨if band = [] then current_range else band⟩
  else ⟨current_range⟩

/-- `RangeAnalyzer._update_postflop_range` (range_analysis.py lines
261-296).  `bet_ratio = action.bet_size_ratio or 0.5`: Python's `or`
replaces a falsy value (`None` or `0`) by 0.5. -/
def update_postflop_range (current_range : List String)
    (action : PlayerAction) (_board : Option (List String))
    (_profile : Option PlayerProfile) : RangeEstimate :=
  if action.action_type = ActionType.fold then ⟨[]⟩
  else if action.action_type = ActionType.check then ⟨current_range⟩
  else if action.action_type = ActionType.call then ⟨current_range⟩
  else if action.action_type = ActionType.bet ∨
      action.action_type = ActionType.raise_ then
    let bet_ratio : ℚ :=
      match action.betSizeFrac with
      | some x => if x = 0 then 1/2 else x
      | none => 1/2
    if bet_ratio ≥ 1 then
      let strong_percentage := min (1/2) (1 / (bet_ratio + 1))
      ⟨filter_top_percentage current_range strong_percentage⟩
    else ⟨current_range⟩
  else ⟨current_range⟩

/-- `RangeAnalyzer.estimate_range_after_action` (range_analysis.py lines
194-220): empty input short-circuits to the empty estimate, preflop
actions go to `_update_preflop_range`, everything else to
`_update_postflop_range`. -/
def estimate_range_after_action (current_range : List String)
    (action : PlayerAction) (position : Position)
    (board : Option (List String)) (profile : Option PlayerProfile) :
    RangeEstimate :=
  if current_range = [] then ⟨[]⟩
  else if action.street = Street.preflop then
    update_preflop_range current_range action position profile
  else update_postflop_range current_range action board profile

/-! ## EquityCalculator (src/core/equity_calculator.py) -/

/-- The implicit module-level `random` generator, made explicit.
`shuffle t xs` is the permutation the generator would produce for input
`xs` at global step `t`; `pick t` drives `random.choice`.  Each consuming
call advances `t`, as each library call advances the hidden global
Mersenne-Twister state. -/
structure GlobalRng where
  shuffle : ℕ → List ℕ → List ℕ
  pick : ℕ → ℕ
  t : ℕ

/-- `random.shuffle(deck)` (equity_calculator.py line 58): one draw from
the global generator. -/
def rng_shuffle (g : GlobalRng) (xs : List ℕ) : List ℕ × GlobalRng :=
  (g.shuffle g.t xs, ⟨g.shuffle, g.pick, g.t + 1⟩)

/-- `random.choice(seq)` (equity_calculator.py line 136): one draw from
the global generator, selecting an index into the sequence. -/
def rng_choice (g : GlobalRng) (xs : List (ℕ × ℕ)) : (ℕ × ℕ) × GlobalRng :=
  (xs.getD (g.pick g.t % xs.length) (0, 0), ⟨g.shuffle, g.pick, g.t + 1⟩)

/-- `Deck.GetFullDeck()` (treys): the 52 distinct cards in a fixed order. -/
def full_deck : List ℕ := List.range 52

/-- Result dict of the equity calculators (win/tie/lose percentages and
the actual iteration count). -/
structure EquityResult where
  win : ℚ
  tie : ℚ
  lose : ℚ
  iterations : ℕ
deriving DecidableEq, Repr

/-- One trial's hero score and opponent scores (equity_calculator.py lines
60-77): the shuffled deck completes the board to 5 cards, then each
opponent takes the next two deck cards.  (Python raises `IndexError` if
the deck runs out — impossible for at most 22 opponents; modelled with
`getD 0`.) -/
def trial_scores (evalFn : List ℕ → List ℕ → ℕ) (hole_cards board : List ℕ)
    (num_opponents : ℕ) (deck : List ℕ) : ℕ × List ℕ :=
  let cards_needed := 5 - board.length
  let sim_board := board ++ deck.take cards_needed
  let my_score := evalFn sim_board hole_cards
  let opp_scores := (List.range num_opponents).map (fun j =>
    evalFn sim_board
      [deck.getD (cards_needed + 2 * j) 0,
       deck.getD (cards_needed + 2 * j + 1) 0])
  (my_score, opp_scores)

/-- Outcome of one Monte Carlo trial. -/
inductive TrialOutcome where
  | win
  | tie
  | lose
deriving DecidableEq, Repr

/-- The tally comparison of one trial (equity_calculator.py lines 72-85):
`best_opponent_score = float('inf')` then `min` over opponents; win when
`my_score < best`, loss when `my_score > best`, otherwise tie.  Scores are
naturals, `float('inf')` is the top of `ℕ∞`. -/
def classify_trial (my_score : ℕ) (opp_scores : List ℕ) : TrialOutcome :=
  let best_opponent_score : ℕ∞ :=
    opp_scores.foldl (fun (acc : ℕ∞) (s : ℕ) => min acc (s : ℕ∞)) ⊤
  if (my_score : ℕ∞) < best_opponent_score then TrialOutcome.win
  else if best_opponent_score < (my_score : ℕ∞) then TrialOutcome.lose
  else TrialOutcome.tie

/-- The Monte Carlo loop of `calculate_equity` (equity_calculator.py lines
55-85), threading the win/tie/loss counters and the global generator. -/
def equity_loop (evalFn : List ℕ → List ℕ → ℕ) (hole_cards board : List ℕ)
    (num_opponents : ℕ) (available_cards : List ℕ) :
    ℕ → (ℕ × ℕ × ℕ) → GlobalRng → (ℕ × ℕ × ℕ) × GlobalRng
  | 0, counts, g => (counts, g)
  | n + 1, (wins, ties, losses), g =>
      let ds := rng_shuffle g available_cards
      let ts := trial_scores evalFn hole_cards board num_opponents ds.1
      let counts :=
        match classify_trial ts.1 ts.2 with
        | TrialOutcome.win => (wins + 1, ties, losses)
        | TrialOutcome.tie => (wins, ties + 1, losses)
        | TrialOutcome.lose => (wins, ties, losses + 1)
      equity_loop evalFn hole_cards board num_opponents available_cards
        n counts ds.2

/-- `used_cards = set(hole_cards + board)` and
`available_cards = [c for c in full_deck if c not in used_cards]`
(equity_calculator.py lines 49-53). -/
def available_for (hole_cards board : List ℕ) : List ℕ :=
  full_deck.filter (fun c => decide (c ∉ hole_cards ++ board))

/-- `EquityCalculator.calculate_equity` (equity_calculator.py lines 17-93).
`board=None` is normalised to `[]` by the caller-side default.  With a
zero total Python raises `ZeroDivisionError`; ℚ division yields 0 here
(`iterations` is never 0 at any call site of this function). -/
def calculate_equity (evalFn : List ℕ → List ℕ → ℕ)
    (hole_cards board : List ℕ) (num_opponents iterations : ℕ)
    (g : GlobalRng) : EquityResult × GlobalRng :=
  let r := equity_loop evalFn hole_cards board num_opponents
    (available_for hole_cards board) iterations (0, 0, 0) g
  let wins := r.1.1
  let ties := r.1.2.1
  let losses := r.1.2.2
  let total := wins + ties + losses
  ({ win := (wins : ℚ) / total * 100, tie := (ties : ℚ) / total * 100,
     lose := (losses : ℚ) / total * 100, iterations := total }, r.2)

/-- The Monte Carlo loop of `calculate_equity_vs_range`
(equity_calculator.py lines 134-157): per trial, pick one combo from the
valid range, rebuild the available deck without its cards, shuffle,
complete the board, evaluate both hands and tally. -/
def vs_range_loop (evalFn : List ℕ → List ℕ → ℕ) (hole_cards board : List ℕ)
    (valid_range : List (ℕ × ℕ)) (used_cards : List ℕ) :
    ℕ → (ℕ × ℕ × ℕ) → GlobalRng → (ℕ × ℕ × ℕ) × GlobalRng
  | 0, counts, g => (counts, g)
  | n + 1, (wins, ties, losses), g =>
      let ch := rng_choice g valid_range
      let opp_hole := ch.1
      let current_used := used_cards ++ [opp_hole.1, opp_hole.2]
      let sh := rng_shuffle ch.2
        (full_deck.filter (fun c => decide (c ∉ current_used)))
      let sim_board := board ++ sh.1.take (5 - board.length)
      let my_score := evalFn sim_board hole_cards
      let opp_score := evalFn sim_board [opp_hole.1, opp_hole.2]
      let counts :=
        if my_score < opp_score then (wins + 1, ties, losses)
        else if my_score > opp_score then (wins, ties, losses + 1)
        else (wins, ties + 1, losses)
      vs_range_loop evalFn hole_cards board valid_range used_cards
        n counts sh.2

/-- The dead-card filter of `calculate_equity_vs_range`
(equity_calculator.py lines 121-127): keep only combos sharing no card
with `used_cards = set(hole_cards + board)`. -/
def valid_range_for (opponent_range : List (ℕ × ℕ))
    (hole_cards board : List ℕ) : List (ℕ × ℕ) :=
  opponent_range.filter (fun hand =>
    decide (hand.1 ∉ hole_cards ++ board) &&
      decide (hand.2 ∉ hole_cards ++ board))

/-- `EquityCalculator.calculate_equity_vs_range` (equity_calculator.py
lines 95-165).  An empty opponent range, or a range whose every combo
collides with the hero's hole cards or the board, short-circuits to the
neutral 50/0/50 result with 0 iterations before any sampling. -/
def calculate_equity_vs_range (evalFn : List ℕ → List ℕ → ℕ)
    (hole_cards : List ℕ) (opponent_range : List (ℕ × ℕ))
    (board : List ℕ) (iterations : ℕ) (g : GlobalRng) :
    EquityResult × GlobalRng :=
  if opponent_range = [] then
    ({ win := 50, tie := 0, lose := 50, iterations := 0 }, g)
  else
    if valid_range_for opponent_range hole_cards board = [] then
      ({ win := 50, tie := 0, lose := 50, iterations := 0 }, g)
    else
      let r := vs_range_loop evalFn hole_cards board
        (valid_range_for opponent_range hole_cards board)
        (hole_cards ++ board) iterations (0, 0, 0) g
      let wins := r.1.1
      let ties := r.1.2.1
      let losses := r.1.2.2
      let total := wins + ties + losses
      ({ win := (wins : ℚ) / total * 100, tie := (ties : ℚ) / total * 100,
         lose := (losses : ℚ) / total * 100, iterations := total }, r.2)

/-! ## PreflopCharts (src/strategy/preflop_charts.py) -/

/-- Default UTG open range (`_init_default_ranges`, preflop_charts.py lines
102-124).  The JSON data file `data/preflop_ranges/6max_ranges.json` is not
part of the repository, so the constructor falls back to these built-in
defaults. -/
def utg_open_hands : List String :=
  ["AA", "KK", "QQ", "JJ", "TT", "99", "88",
   "AKs", "AQs", "AJs", "ATs", "AKo", "AQo",
   "KQs", "KJs", "QJs", "JTs"]

/-- Default BTN open range (`_init_default_ranges`, preflop_charts.py lines
113-123). -/
def btn_open_hands : List String :=
  ["AA", "KK", "QQ", "JJ", "TT", "99", "88", "77", "66", "55", "44", "33",
   "22",
   "AKs", "AQs", "AJs", "ATs", "A9s", "A8s", "A7s", "A6s", "A5s", "A4s",
   "A3s", "A2s",
   "AKo", "AQo", "AJo", "ATo", "A9o",
   "KQs", "KJs", "KTs", "K9s", "KQo", "KJo",
   "QJs", "QTs", "Q9s", "QJo",
   "JTs", "J9s", "JTo",
   "T9s", "T8s", "98s", "87s", "76s", "65s", "54s"]

/-- `PreflopCharts.get_open_range` (preflop_charts.py lines 126-130) over
the default chart: the ranges dict has entries only for "UTG" and "BTN";
`.get` with default `{}` makes every other position empty. -/
def get_open_range (position : Position) : List String :=
  match position with
  | Position.utg => utg_open_hands
  | Position.btn => btn_open_hands
  | _ => []

/-- `PreflopCharts.get_3bet_range` (preflop_charts.py lines 132-137) over
the default chart: no position has a `vs_*_open` entry, so the result is
always empty. -/
def get_3bet_range (_position _vs_position : Position) : List String := []

/-- `PreflopCharts.get_call_range` (preflop_charts.py lines 139-144) over
the default chart: always empty, as for the 3-bet ranges. -/
def get_call_range (_position _vs_position : Position) : List String := []

/-- The `rank_order` dict of `cards_to_hand` (preflop_charts.py lines
254-255).  Python indexing `rank_order[r]` raises `KeyError` on an unknown
rank character; modelled as 0 (only comparisons are performed). -/
def rank_order_char (c : Char) : ℕ :=
  if c = 'A' then 14 else if c = 'K' then 13 else if c = 'Q' then 12
  else if c = 'J' then 11 else if c = 'T' then 10 else if c = '9' then 9
  else if c = '8' then 8 else if c = '7' then 7 else if c = '6' then 6
  else if c = '5' then 5 else if c = '4' then 4 else if c = '3' then 3
  else if c = '2' then 2 else 0

/-- `PreflopCharts.cards_to_hand` (preflop_charts.py lines 247-270):
order the two card ranks descending, then emit "RR", "R1R2s" or "R1R2o". -/
def cards_to_hand (card1 card2 : String) : String :=
  let r1 := card1.toList.getD 0 ' '
  let s1 := card1.toList.getD 1 ' '
  let r2 := card2.toList.getD 0 ' '
  let s2 := card2.toList.getD 1 ' '
  let hi_first :=
    if rank_order_char r1 < rank_order_char r2 then ((r2, s2), (r1, s1))
    else ((r1, s1), (r2, s2))
  let a := hi_first.1
  let b := hi_first.2
  if a.1 = b.1 then String.mk [a.1, b.1]
  else if a.2 = b.2 then String.mk [a.1, b.1, 's']
  else String.mk [a.1, b.1, 'o']

/-! ## GTOAdvisor (src/strategy/gto_advisor.py) -/

/-- RecommendedAction enum (gto_advisor.py lines 18-30). -/
inductive RecommendedAction where
  | fold
  | check
  | call
  | bet_small
  | bet_medium
  | bet_large
  | bet_overbet
  | raise_small
  | raise_medium
  | raise_large
  | all_in
deriving DecidableEq, Repr

/-- ActionRecommendation dataclass (gto_advisor.py lines 33-42).  The
`reasoning` list holds display-only formatted strings and is omitted from
the model; `sizing_frac` is the source field `sizing_ratio` (pot-relative
or blind-relative sizing). -/
structure ActionRecommendation where
  primary_action : RecommendedAction
  confidence : ℚ
  ev : Option ℚ := none
  bet_sizing : Option ℚ := none
  sizing_frac : Option ℚ := none
  alternatives : List (RecommendedAction × ℚ) := []
deriving DecidableEq, Repr

/-- GameState dataclass (gto_advisor.py lines 66-112). -/
structure GameState where
  my_hand : List String
  my_position : Position
  my_stack : ℚ
  board : List String := []
  pot_size : ℚ := 0
  to_call : ℚ := 0
  num_opponents : ℕ := 1
  opponent_positions : List Position := []
  opponent_stacks : List ℚ := []
  action_history : List PlayerAction := []
  street : Street := Street.preflop
deriving DecidableEq, Repr

/-- `GameState.is_preflop` property (gto_advisor.py lines 92-94). -/
def GameState.is_preflop (s : GameState) : Bool := s.street == Street.preflop

/-- `GameState.my_hand_str` property (gto_advisor.py lines 109-112).
(Python indexes `my_hand[0]`/`my_hand[1]`, raising on shorter lists;
modelled with `getD`.) -/
def GameState.my_hand_str (s : GameState) : String :=
  cards_to_hand (s.my_hand.getD 0 "") (s.my_hand.getD 1 "")

/-- `Card.new` (treys): rank-major, suit-minor encoding into the 52
distinct card codes of `full_deck`.  Rank order "23456789TJQKA", suit
order s, h, d, c — matching the construction order of `Deck.GetFullDeck`.
(Unknown characters raise in treys; modelled as index 0.) -/
def card_new (s : String) : ℕ :=
  let rank_idx :=
    (['2', '3', '4', '5', '6', '7', '8', '9', 'T', 'J', 'Q', 'K',
      'A'].findIdx? (fun c => c == s.toList.getD 0 ' ')).getD 0
  let suit_idx :=
    (['s', 'h', 'd', 'c'].findIdx? (fun c => c == s.toList.getD 1 ' ')).getD 0
  rank_idx * 4 + suit_idx

/-- Default precomputed solutions, `_get_default_solutions` (gto_advisor.py
lines 139-168); the JSON file `data/gto_solutions/basic_solutions.json` is
not part of the repository, so `_load_solutions` returns these.
`open_sizing` is looked up with `.get(position.value, 2.5)`: only SB has a
non-default entry, and BB falls back to the default 2.5. -/
def open_sizing (position : Position) : ℚ :=
  match position with
  | Position.sb => 3
  | _ => 5/2

/-- `3bet_sizing` of the default solutions (gto_advisor.py lines 150-153). -/
def threebet_sizing (in_position : Bool) : ℚ :=
  if in_position then 3 else 7/2

/-- `cbet_sizing` of the default solutions (gto_advisor.py lines 157-161),
keyed by the board-texture string.  (Any other key would be a Python
`KeyError`; unreachable, modelled as 0.) -/
def cbet_sizing (texture : String) : ℚ :=
  if texture = "dry_board" then 33/100
  else if texture = "wet_board" then 67/100
  else if texture = "coordinated" then 3/4
  else 0

/-- `value_sizing` of the default solutions (gto_advisor.py lines 162-166). -/
def value_sizing_thin : ℚ := 1/2

/-- `value_sizing.strong_value` of the default solutions. -/
def value_sizing_strong : ℚ := 3/4

/-- `GTOAdvisor._is_in_position` (gto_advisor.py lines 506-509). -/
def position_order : List Position :=
  [Position.sb, Position.bb, Position.utg, Position.hj, Position.co,
   Position.btn]

/-- `order.index(my_pos) > order.index(opp_pos)` (gto_advisor.py line 509). -/
def is_in_position (my_pos opp_pos : Position) : Bool :=
  (position_order.findIdx? (fun p => p == my_pos)).getD 0 >
    (position_order.findIdx? (fun p => p == opp_pos)).getD 0

/-- The `rank_map` lookup of `_analyze_board_texture` (gto_advisor.py lines
486-489): `.get(r, 0)` gives 0 for unknown rank characters. -/
def rank_map_get (c : Char) : ℕ := rank_order_char c

/-- Stable ascending insertion for naturals (Python `list.sort()` on the
rank values, gto_advisor.py line 491). -/
def insert_nat (x : ℕ) : List ℕ → List ℕ
  | [] => [x]
  | y :: ys => if y ≤ x then y :: insert_nat x ys else x :: y :: ys

/-- `rank_values.sort()`: ascending sort of the board rank values. -/
def sort_nats (xs : List ℕ) : List ℕ :=
  xs.foldl (fun acc x => insert_nat x acc) []

/-- `GTOAdvisor._analyze_board_texture` (gto_advisor.py lines 469-504).
Flush draw: some suit occurs at least 3 times; straight draw: at least 3
cards whose sorted rank span is at most 4; paired: a repeated rank.
(`max(suit_counts.values()) >= 3` equals "some suit on the board has count
at least 3" since the board is non-empty in this branch.) -/
def analyze_board_texture (board : List String) : String :=
  if board = [] then "dry_board"
  else
    let ranks := board.map (fun c => c.toList.getD 0 ' ')
    let suits := board.map (fun c => c.toList.getD 1 ' ')
    let flush_draw := suits.any (fun s => decide (suits.count s ≥ 3))
    let rank_values := sort_nats (ranks.map rank_map_get)
    let straight_draw :=
      decide (rank_values.length ≥ 3) &&
        decide ((rank_values.getLast?.getD 0) - (rank_values.headD 0) ≤ 4)
    let paired := decide (ranks.dedup.length < ranks.length)
    if flush_draw && straight_draw then "coordinated"
    else if flush_draw || straight_draw then "wet_board"
    else if paired then "dry_board"
    else "dry_board"

/-- `GTOAdvisor._get_open_recommendation` (gto_advisor.py lines 206-236). -/
def get_open_recommendation (hand : String) (position : Position)
    (_state : GameState) : ActionRecommendation :=
  let open_range := get_open_range position
  if hand ∈ open_range then
    { primary_action := RecommendedAction.raise_medium, confidence := 1,
      sizing_frac := some (open_sizing position) }
  else
    { primary_action := RecommendedAction.fold, confidence := 1 }

/-- `GTOAdvisor._get_vs_raise_recommendation` (gto_advisor.py lines
238-295).  `pot_analysis` in the call branch feeds only a reasoning
string. -/
def get_vs_raise_recommendation (hand : String) (position : Position)
    (state : GameState) (_profile : Option PlayerProfile) :
    ActionRecommendation :=
  let raiser_position := state.opponent_positions.headD Position.utg
  let threbet_range := get_3bet_range position raiser_position
  let call_range := get_call_range position raiser_position
  if hand ∈ threbet_range then
    let in_position := is_in_position position raiser_position
    let sizing_mult := threebet_sizing in_position
    { primary_action := RecommendedAction.raise_large, confidence := 9/10,
      bet_sizing := some (state.to_call * sizing_mult),
      alternatives := [(RecommendedAction.call, 1/10)] }
  else if hand ∈ call_range then
    { primary_action := RecommendedAction.call, confidence := 17/20,
      alternatives := [(RecommendedAction.raise_large, 3/20)] }
  else
    { primary_action := RecommendedAction.fold, confidence := 1 }

/-- `GTOAdvisor._get_preflop_recommendation` (gto_advisor.py lines
187-204): dispatch on `facing_raise = state.to_call > 0`. -/
def get_preflop_recommendation (state : GameState)
    (profile : Option PlayerProfile) : ActionRecommendation :=
  let hand := state.my_hand_str
  let position := state.my_position
  if state.to_call > 0 then
    get_vs_raise_recommendation hand position state profile
  else
    get_open_recommendation hand position state

/-- `GTOAdvisor._get_facing_bet_recommendation` (gto_advisor.py lines
323-389). -/
def get_facing_bet_recommendation (state : GameState) (equity : ℚ)
    (_board_texture : String) (profile : Option PlayerProfile) :
    ActionRecommendation :=
  let pot_analysis := analyze state.pot_size state.to_call (some equity)
  if pot_analysis.is_profitable_call = some true then
    if equity > 65 then
      { primary_action := RecommendedAction.raise_medium,
        confidence := 7/10, ev := pot_analysis.ev,
        alternatives := [(RecommendedAction.call, 3/10)] }
    else
      { primary_action := RecommendedAction.call, confidence := 4/5,
        ev := pot_analysis.ev }
  else
    if (match profile with
        | some p => decide (p.fold_to_cbet > 60)
        | none => false) && decide (equity > 20) then
      { primary_action := RecommendedAction.raise_medium,
        confidence := 1/2,
        alternatives := [(RecommendedAction.fold, 2/5),
                         (RecommendedAction.call, 1/10)] }
    else
      { primary_action := RecommendedAction.fold, confidence := 17/20,
        ev := pot_analysis.ev }

/-- `GTOAdvisor._get_betting_recommendation` (gto_advisor.py lines
391-467).  In the final branch the source computes a `cbet_sizing` value
that the returned recommendation does not use. -/
def get_betting_recommendation (state : GameState) (equity : ℚ)
    (board_texture : String) (profile : Option PlayerProfile) :
    ActionRecommendation :=
  if equity > 70 then
    let sizing := value_sizing_strong
    { primary_action := RecommendedAction.bet_large, confidence := 17/20,
      sizing_frac := some sizing,
      bet_sizing := some (state.pot_size * sizing) }
  else if equity > 55 then
    let sizing := value_sizing_thin
    { primary_action := RecommendedAction.bet_medium, confidence := 3/5,
      sizing_frac := some sizing,
      bet_sizing := some (state.pot_size * sizing),
      alternatives := [(RecommendedAction.check, 2/5)] }
  else if equity > 35 then
    { primary_action := RecommendedAction.check, confidence := 7/10,
      alternatives := [(RecommendedAction.bet_small, 1/5),
                       (RecommendedAction.bet_medium, 1/10)] }
  else
    let bluff_freq : ℚ :=
      match profile with
      | some p => if p.fold_to_cbet > 55 then 7/20 else 1/5
      | none => 1/5
    let _sizing := cbet_sizing board_texture
    { primary_action := RecommendedAction.check,
      confidence := 1 - bluff_freq,
      alternatives := [(RecommendedAction.bet_small, bluff_freq)] }

/-- `GTOAdvisor._get_postflop_recommendation` (gto_advisor.py lines
297-321): equity via `calculate_equity(..., iterations=5000)` drawing on
the global generator, then dispatch on `to_call > 0`. -/
def get_postflop_recommendation (evalFn : List ℕ → List ℕ → ℕ)
    (state : GameState) (profile : Option PlayerProfile) (g : GlobalRng) :
    ActionRecommendation × GlobalRng :=
  let my_cards := state.my_hand.map card_new
  let board_cards := state.board.map card_new
  let er := calculate_equity evalFn my_cards board_cards
    state.num_opponents 5000 g
  let equity := er.1.win
  let board_texture := analyze_board_texture state.board
  if state.to_call > 0 then
    (get_facing_bet_recommendation state equity board_texture profile, er.2)
  else
    (get_betting_recommendation state equity board_texture profile, er.2)

/-- `GTOAdvisor.get_recommendation` (gto_advisor.py lines 170-185).  The
preflop branch touches no randomness; the postflop branch consumes the
global generator through the Monte Carlo equity simulation.  There is no
RNG or seed parameter in the source API — the explicit `g` here is the
modelled state of the module-level global generator. -/
def get_recommendation (evalFn : List ℕ → List ℕ → ℕ)
    (game_state : GameState) (opponent_profile : Option PlayerProfile)
    (g : GlobalRng) : ActionRecommendation × GlobalRng :=
  if game_state.is_preflop then
    (get_preflop_recommendation game_state opponent_profile, g)
  else
    get_postflop_recommendation evalFn game_state opponent_profile g

/-! ## Concrete instances used by the counterexamples and witnesses -/

/-- A concrete deterministic evaluation oracle standing in for the treys
evaluator in the closed counterexample below: it scores a hand by its hole
cards only (hero's `[48, 45]` scores 10, the combo `[49, 47]` scores 1,
everything else 20).  Any injective deterministic evaluator exhibits the
same phenomenon; this one keeps the kernel computation small. -/
def ex_eval : List ℕ → List ℕ → ℕ := fun _ hole =>
  if hole = [48, 45] then 10 else if hole = [49, 47] then 1 else 20

/-- A concrete global-generator state: the first 5000 shuffles leave the
deck unchanged, every later shuffle reverses it.  Both outcomes are
genuine permutations, so this is a legitimate behaviour of Python's
`random.shuffle` stream. -/
def ex_rng : GlobalRng :=
  ⟨fun t xs => if t < 5000 then xs else xs.reverse, fun _ => 0, 0⟩

/-- A concrete postflop `GameState`: hero holds As Kh on the 2s 7d Qc
flop, first to act (`to_call = 0`), one opponent. -/
def ex_state : GameState :=
  { my_hand := ["As", "Kh"], my_position := Position.btn, my_stack := 1000,
    board := ["2s", "7d", "Qc"], pot_size := 100, to_call := 0,
    num_opponents := 1, street := Street.flop }

/-! ## Helper lemmas -/

/-- Membership through one stable insertion step. -/
theorem mem_insert_by_rank (x y : String) :
    ∀ (l : List String), (y ∈ insert_by_rank x l ↔ y = x ∨ y ∈ l)
  | [] => by simp [insert_by_rank]
  | z :: zs => by
      simp only [insert_by_rank]
      by_cases h : get_hand_strength_rank z ≤ get_hand_strength_rank x
      · rw [if_pos h]
        simp only [List.mem_cons, mem_insert_by_rank x y zs]
        tauto
      · rw [if_neg h]
        simp only [List.mem_cons]

/-- Membership through the insertion-sort fold. -/
theorem mem_sort_fold (y : String) :
    ∀ (xs acc : List String),
      (y ∈ xs.foldl (fun acc x => insert_by_rank x acc) acc ↔
        y ∈ acc ∨ y ∈ xs)
  | [], acc => by simp
  | x :: xs, acc => by
      rw [List.foldl_cons, mem_sort_fold y xs (insert_by_rank x acc),
        mem_insert_by_rank x y acc]
      simp only [List.mem_cons]
      tauto

/-- `sort_by_rank` is a permutation-invariant view: same members. -/
theorem mem_sort_by_rank (y : String) (xs : List String) :
    y ∈ sort_by_rank xs ↔ y ∈ xs := by
  rw [sort_by_rank, mem_sort_fold y xs []]
  simp

/-- `_filter_top_percentage` only keeps hands of the input range. -/
theorem filter_top_percentage_subset (xs : List String) (pct : ℚ) (y : String)
    (hy : y ∈ filter_top_percentage xs pct) : y ∈ xs := by
  have h1 : y ∈ sort_by_rank xs := List.take_subset _ _ hy
  exact (mem_sort_by_rank y xs).mp h1

/-- The preflop strength-band filters only keep hands of the input range. -/
theorem preflop_band_filter_subset (t : ActionType) (l : List String)
    (y : String) (hy : y ∈ preflop_band_filter t l) : y ∈ l := by
  cases t <;> simp only [preflop_band_filter] at hy <;>
    first
      | exact hy
      | exact (List.mem_filter.mp hy).1

/-! ## C1 -/

/-- C1 counterexample: `calculate_ev(0.5, 100, 50)` is exactly −49, not 0
(the function reads equity on a 0-100 percent scale, and even on the
spec's own 0-1 scale the formula gives 50 at equity 0.5, pot 100,
call 50). -/
theorem c1_counterexample :
    calculate_ev (1/2) 100 50 false = -49 ∧
    calculate_ev (1/2) 100 50 false ≠ 0 := by
  constructor <;> norm_num [calculate_ev]

/-- C1 (amended): `calculate_ev` computes
`ev = (equity/100)·(pot+call) − (1 − equity/100)·call` with equity on the
0-100 percent scale; its zero (breakeven) equity is
`100·call/(pot + 2·call)`, and in particular `calculate_ev(25, 100, 50)`
is exactly 0. -/
theorem c1_theorem (pot_size call_amount : ℚ)
    (h : pot_size + 2 * call_amount ≠ 0) :
    (∀ equity, calculate_ev equity pot_size call_amount false =
      equity / 100 * (pot_size + call_amount) -
        (1 - equity / 100) * call_amount) ∧
    calculate_ev (100 * call_amount / (pot_size + 2 * call_amount))
      pot_size call_amount false = 0 ∧
    calculate_ev 25 100 50 false = 0 := by
  refine ⟨fun equity => rfl, ?_, by norm_num [calculate_ev]⟩
  unfold calculate_ev
  field_simp
  ring

/-- C1 witness: the amended theorem at pot 100, call 50. -/
theorem c1_witness :
    (100 : ℚ) + 2 * 50 ≠ 0 ∧ calculate_ev 25 100 50 false = 0 :=
  ⟨by norm_num, (c1_theorem 100 50 (by norm_num)).2.2⟩

/-! ## C8 -/

/-- C8 counterexample: the worst score 7462 is mapped to 50/3731
(≈ 0.0134), not to 0. -/
theorem c8_counterexample :
    get_rank_percentage 7462 = 50 / 3731 ∧ get_rank_percentage 7462 ≠ 0 := by
  constructor <;> norm_num [get_rank_percentage]

/-- C8 (amended): `get_rank_percentage` is the linear map
`s ↦ (7463 − s)·100/7462`, which sends the best score 1 to 100 exactly and
the worst score 7462 to 50/3731 (the score that would map to 0 is 7463,
one past the worst). -/
theorem c8_theorem :
    (∀ score : ℚ, get_rank_percentage score = (7463 - score) * 100 / 7462) ∧
    get_rank_percentage 1 = 100 ∧
    get_rank_percentage 7462 = 50 / 3731 := by
  refine ⟨fun score => ?_, by norm_num [get_rank_percentage],
    by norm_num [get_rank_percentage]⟩
  unfold get_rank_percentage
  ring

/-- Projection of an explicit `RangeEstimate`. -/
theorem hands_mk (l : List String) : (RangeEstimate.mk l).hands = l := rfl

/-- `_update_preflop_range` never invents hands: its result is always a
sub-collection of the input range. -/
theorem update_preflop_range_subset (cur : List String) (a : PlayerAction)
    (pos : Position) (prof : Option PlayerProfile) (y : String)
    (hy : y ∈ (update_preflop_range cur a pos prof).hands) : y ∈ cur := by
  unfold update_preflop_range at hy
  by_cases hf : a.action_type = ActionType.fold
  · rw [if_pos hf] at hy
    exact absurd hy (List.not_mem_nil y)
  rw [if_neg hf] at hy
  by_cases hband : a.action_type = ActionType.call ∨
      a.action_type = ActionType.raise_ ∨ a.action_type = ActionType.bet ∨
      a.action_type = ActionType.all_in
  · rw [if_pos hband] at hy
    simp only [hands_mk] at hy
    by_cases hb : preflop_band_filter a.action_type cur = []
    · rw [if_pos hb] at hy
      exact hy
    · rw [if_neg hb] at hy
      exact preflop_band_filter_subset _ _ _ hy
  · rw [if_neg hband] at hy
    exact hy

/-- `_update_postflop_range` never invents hands: its result is always a
sub-collection of the input range. -/
theorem update_postflop_range_subset (cur : List String) (a : PlayerAction)
    (bd : Option (List String)) (prof : Option PlayerProfile) (y : String)
    (hy : y ∈ (update_postflop_range cur a bd prof).hands) : y ∈ cur := by
  unfold update_postflop_range at hy
  by_cases hf : a.action_type = ActionType.fold
  · rw [if_pos hf] at hy
    exact absurd hy (List.not_mem_nil y)
  rw [if_neg hf] at hy
  by_cases hck : a.action_type = ActionType.check
  · rw [if_pos hck] at hy
    exact hy
  rw [if_neg hck] at hy
  by_cases hca : a.action_type = ActionType.call
  · rw [if_pos hca] at hy
    exact hy
  rw [if_neg hca] at hy
  by_cases hbr : a.action_type = ActionType.bet ∨
      a.action_type = ActionType.raise_
  · rw [if_pos hbr] at hy
    simp only [hands_mk] at hy
    split at hy
    · exact filter_top_percentage_subset _ _ _ hy
    · exact hy
  · rw [if_neg hbr] at hy
    exact hy

/-! ## C5 -/

/-- C5: range narrowing is monotone — every hand in the estimate returned
by `estimate_range_after_action` was already in the input range, for every
input range, action, position, board and profile; hands once removed are
never reintroduced. -/
theorem c5_theorem (current_range : List String) (action : PlayerAction)
    (position : Position) (board : Option (List String))
    (profile : Option PlayerProfile) (h : String)
    (hmem : h ∈ (estimate_range_after_action current_range action position
      board profile).hands) : h ∈ current_range := by
  unfold estimate_range_after_action at hmem
  by_cases hemp : current_range = []
  · rw [if_pos hemp] at hmem
    exact absurd hmem (List.not_mem_nil h)
  rw [if_neg hemp] at hmem
  by_cases hst : action.street = Street.preflop
  · rw [if_pos hst] at hmem
    exact update_preflop_range_subset _ _ _ _ _ hmem
  · rw [if_neg hst] at hmem
    exact update_postflop_range_subset _ _ _ _ _ hmem

/-- C5 witness: the monotonicity theorem applied to a concrete preflop
raise narrowing. -/
theorem c5_witness : "AA" ∈ (["AA", "72o"] : List String) :=
  c5_theorem ["AA", "72o"]
    ⟨Street.preflop, ActionType.raise_, none, none⟩ Position.btn none none
    "AA" (by decide)

/-! ## C9 -/

/-- C9: a FOLD action on any street maps every non-empty range to the
empty estimate, whose combo count is 0. -/
theorem c9_theorem (current_range : List String) (action : PlayerAction)
    (position : Position) (board : Option (List String))
    (profile : Option PlayerProfile) (h1 : current_range ≠ [])
    (h2 : action.action_type = ActionType.fold) :
    (estimate_range_after_action current_range action position board
        profile).hands = [] ∧
    (estimate_range_after_action current_range action position board
        profile).combos = Except.ok 0 := by
  unfold estimate_range_after_action
  rw [if_neg h1]
  by_cases hst : action.street = Street.preflop
  · rw [if_pos hst]
    unfold update_preflop_range
    rw [if_pos h2]
    exact ⟨rfl, rfl⟩
  · rw [if_neg hst]
    unfold update_postflop_range
    rw [if_pos h2]
    exact ⟨rfl, rfl⟩

/-- C9 witness: folding a concrete one-hand preflop range. -/
theorem c9_witness :
    (estimate_range_after_action ["AA"]
        ⟨Street.preflop, ActionType.fold, none, none⟩ Position.btn none
        none).hands = [] ∧
    (estimate_range_after_action ["AA"]
        ⟨Street.preflop, ActionType.fold, none, none⟩ Position.btn none
        none).combos = Except.ok 0 :=
  c9_theorem _ _ _ _ _ (by simp) rfl

/-! ## C10 -/

/-- C10: a preflop CALL, BET, RAISE or ALL_IN never empties a non-empty
range — the result is the strength-band filter when that filter is
non-empty, and the unchanged input range otherwise. -/
theorem c10_theorem (current_range : List String) (action : PlayerAction)
    (position : Position) (board : Option (List String))
    (profile : Option PlayerProfile) (h1 : current_range ≠ [])
    (hs : action.street = Street.preflop)
    (ha : action.action_type = ActionType.call ∨
      action.action_type = ActionType.bet ∨
      action.action_type = ActionType.raise_ ∨
      action.action_type = ActionType.all_in) :
    (estimate_range_after_action current_range action position board
        profile).hands ≠ [] ∧
    (estimate_range_after_action current_range action position board
        profile).hands =
      (if preflop_band_filter action.action_type current_range = [] then
        current_range
      else preflop_band_filter action.action_type current_range) := by
  unfold estimate_range_after_action
  rw [if_neg h1, if_pos hs]
  unfold update_preflop_range
  have hf : ¬ action.action_type = ActionType.fold := by
    rcases ha with h | h | h | h <;> simp [h]
  have hor : action.action_type = ActionType.call ∨
      action.action_type = ActionType.raise_ ∨
      action.action_type = ActionType.bet ∨
      action.action_type = ActionType.all_in := by tauto
  rw [if_neg hf, if_pos hor]
  refine ⟨?_, rfl⟩
  show (if preflop_band_filter action.action_type current_range = [] then
    current_range else preflop_band_filter action.action_type
      current_range) ≠ []
  by_cases hb : preflop_band_filter action.action_type current_range = []
  · rw [if_pos hb]
    exact h1
  · rw [if_neg hb]
    exact hb

/-- C10 witness: a preflop call from a range whose medium band is empty
leaves the range unchanged (and non-empty). -/
theorem c10_witness :
    (estimate_range_after_action ["72o"]
        ⟨Street.preflop, ActionType.call, none, none⟩ Position.btn none
        none).hands ≠ [] ∧
    (estimate_range_after_action ["72o"]
        ⟨Street.preflop, ActionType.call, none, none⟩ Position.btn none
        none).hands = ["72o"] := by
  have h := c10_theorem ["72o"]
    ⟨Street.preflop, ActionType.call, none, none⟩ Position.btn none none
    (by simp) rfl (Or.inl rfl)
  exact ⟨h.1, by rw [h.2]; decide⟩

/-! ## C3 -/

/-- C3: `calculate_equity_vs_range` returns the neutral 50/0/50 result
with 0 iterations (leaving the generator untouched) whenever the opponent
range is empty or every combo in it collides with the hero's hole cards or
the board. -/
theorem c3_theorem (evalFn : List ℕ → List ℕ → ℕ) (hole_cards : List ℕ)
    (opponent_range : List (ℕ × ℕ)) (board : List ℕ) (iterations : ℕ)
    (g : GlobalRng)
    (h : opponent_range = [] ∨ ∀ hand ∈ opponent_range,
      hand.1 ∈ hole_cards ++ board ∨ hand.2 ∈ hole_cards ++ board) :
    calculate_equity_vs_range evalFn hole_cards opponent_range board
        iterations g =
      ({ win := 50, tie := 0, lose := 50, iterations := 0 }, g) := by
  unfold calculate_equity_vs_range
  by_cases he : opponent_range = []
  · rw [if_pos he]
  · rw [if_neg he]
    rcases h with h | hall
    · exact absurd h he
    have hfil : valid_range_for opponent_range hole_cards board = [] := by
      rw [valid_range_for, List.filter_eq_nil_iff]
      intro a ha
      rcases hall a ha with h1 | h1
      · simp [h1]
      · simp [h1]
    rw [if_pos hfil]

/-- C3 witness: a range whose single combo shares card 0 with the hero's
hole cards. -/
theorem c3_witness :
    calculate_equity_vs_range (fun _ _ => 0) [0, 5] [(0, 1)] [] 100
        ⟨fun _ xs => xs, fun _ => 0, 0⟩ =
      ({ win := 50, tie := 0, lose := 50, iterations := 0 },
        ⟨fun _ xs => xs, fun _ => 0, 0⟩) :=
  c3_theorem _ _ _ _ _ _ (Or.inr (by decide))

/-! ## C7 -/

/-- C7 counterexample: `evaluate` signals no structured shape errors.
A 3-card hole with a 4-card board (hole size outside {2}, 7 cards total)
is evaluated without any error; a 2+2-card input (fewer than 5 cards)
surfaces as the treys library's `KeyError`, not as `InvalidHandShape`. -/
theorem c7_counterexample :
    HandEvaluator.evaluate (fun _ => 0) [1, 2, 3] [4, 5, 6, 7] =
        Except.ok 0 ∧
    HandEvaluator.evaluate (fun _ => 0) [1, 2] [3, 4] =
        Except.error EvalError.keyError ∧
    HandEvaluator.evaluate (fun _ => 0) [1, 2] [3, 4] ≠
        Except.error EvalError.invalidHandShape := by
  refine ⟨by decide, by decide, by decide⟩

/-- C7 (amended): `HandEvaluator.evaluate` performs no validation of its
own: for a duplicate-free card set it succeeds exactly when the total card
count is 5, 6 or 7 regardless of the hole/board split, and it never
signals `InvalidHandShape` or `InvalidCardSet` (out-of-range counts
surface as the treys library's `KeyError`). -/
theorem c7_theorem (fiveEval : List ℕ → ℕ) (hole_cards board : List ℕ)
    (_hnodup : (board ++ hole_cards).Nodup) :
    ((HandEvaluator.evaluate fiveEval hole_cards board).isOk = true ↔
      (board ++ hole_cards).length = 5 ∨ (board ++ hole_cards).length = 6 ∨
        (board ++ hole_cards).length = 7) ∧
    HandEvaluator.evaluate fiveEval hole_cards board ≠
      Except.error EvalError.invalidHandShape ∧
    HandEvaluator.evaluate fiveEval hole_cards board ≠
      Except.error EvalError.invalidCardSet := by
  unfold HandEvaluator.evaluate treys_evaluate
  by_cases h5 : (board ++ hole_cards).length = 5
  · rw [if_pos h5]
    exact ⟨⟨fun _ => Or.inl h5, fun _ => rfl⟩, by simp, by simp⟩
  rw [if_neg h5]
  by_cases h67 : (board ++ hole_cards).length = 6 ∨
      (board ++ hole_cards).length = 7
  · rw [if_pos h67]
    refine ⟨⟨fun _ => ?_, fun _ => rfl⟩, by simp, by simp⟩
    rcases h67 with h | h
    · exact Or.inr (Or.inl h)
    · exact Or.inr (Or.inr h)
  · rw [if_neg h67]
    push_neg at h67
    refine ⟨⟨fun hc => absurd hc (by decide), fun hc => ?_⟩,
      by decide, by decide⟩
    rcases hc with h | h | h
    · exact absurd h h5
    · exact absurd h h67.1
    · exact absurd h h67.2

/-- C7 witness: the amended theorem at a concrete valid 2+3 evaluation. -/
theorem c7_witness :
    (([2, 3, 4] ++ [0, 1] : List ℕ)).Nodup ∧
    (((HandEvaluator.evaluate (fun _ => 100) [0, 1] [2, 3, 4]).isOk = true ↔
      ([2, 3, 4] ++ [0, 1] : List ℕ).length = 5 ∨
        ([2, 3, 4] ++ [0, 1] : List ℕ).length = 6 ∨
        ([2, 3, 4] ++ [0, 1] : List ℕ).length = 7) ∧
    HandEvaluator.evaluate (fun _ => 100) [0, 1] [2, 3, 4] ≠
      Except.error EvalError.invalidHandShape ∧
    HandEvaluator.evaluate (fun _ => 100) [0, 1] [2, 3, 4] ≠
      Except.error EvalError.invalidCardSet) :=
  ⟨by decide, c7_theorem (fun _ => 100) [0, 1] [2, 3, 4] (by decide)⟩

/-! ## C4 -/

/-- Strictly below a running minimum iff strictly below the seed and every
element. -/
theorem lt_foldl_min (x : ℕ∞) :
    ∀ (l : List ℕ) (b : ℕ∞),
      (x < l.foldl (fun (acc : ℕ∞) (s : ℕ) => min acc (s : ℕ∞)) b ↔
        x < b ∧ ∀ s ∈ l, x < (s : ℕ∞))
  | [], b => by simp
  | a :: l, b => by
      rw [List.foldl_cons, lt_foldl_min x l (min b (a : ℕ∞))]
      simp only [lt_min_iff, List.mem_cons]
      constructor
      · rintro ⟨⟨hb, ha⟩, hl⟩
        refine ⟨hb, ?_⟩
        rintro s (rfl | hs)
        · exact ha
        · exact hl s hs
      · rintro ⟨hb, hl⟩
        exact ⟨⟨hb, hl a (Or.inl rfl)⟩,
          fun s hs => hl s (Or.inr hs)⟩

/-- A running minimum is strictly below a bound iff the seed or some
element is. -/
theorem foldl_min_lt (x : ℕ∞) :
    ∀ (l : List ℕ) (b : ℕ∞),
      (l.foldl (fun (acc : ℕ∞) (s : ℕ) => min acc (s : ℕ∞)) b < x ↔
        b < x ∨ ∃ s ∈ l, (s : ℕ∞) < x)
  | [], b => by simp
  | a :: l, b => by
      rw [List.foldl_cons, foldl_min_lt x l (min b (a : ℕ∞))]
      simp only [min_lt_iff, List.mem_cons]
      constructor
      · rintro ((hb | ha) | ⟨s, hs, hx⟩)
        · exact Or.inl hb
        · exact Or.inr ⟨a, Or.inl rfl, ha⟩
        · exact Or.inr ⟨s, Or.inr hs, hx⟩
      · rintro (hb | ⟨s, rfl | hs, hx⟩)
        · exact Or.inl (Or.inl hb)
        · exact Or.inl (Or.inr hx)
        · exact Or.inr ⟨s, hs, hx⟩

/-- Each loop pass tallies exactly one trial into exactly one bucket: the
three counters always sum to the starting sum plus the iteration count. -/
theorem equity_loop_total (evalFn : List ℕ → List ℕ → ℕ)
    (hc bd : List ℕ) (k : ℕ) (av : List ℕ) :
    ∀ (n w t l : ℕ) (g : GlobalRng),
      (equity_loop evalFn hc bd k av n (w, t, l) g).1.1 +
        (equity_loop evalFn hc bd k av n (w, t, l) g).1.2.1 +
        (equity_loop evalFn hc bd k av n (w, t, l) g).1.2.2 =
        w + t + l + n
  | 0, w, t, l, g => rfl
  | n + 1, w, t, l, g => by
      simp only [equity_loop]
      cases hcl : classify_trial
        (trial_scores evalFn hc bd k (rng_shuffle g av).1).1
        (trial_scores evalFn hc bd k (rng_shuffle g av).1).2 <;>
        simp only [hcl] <;>
        rw [equity_loop_total evalFn hc bd k av n _ _ _ _] <;> omega

/-- C4: in every Monte Carlo trial of `calculate_equity`, the comparison
against the running opponent minimum counts the trial as a win iff the
hero's score strictly beats (is strictly lower than) every opponent score,
as a loss iff some opponent score strictly beats the hero's, and otherwise
as one full tie; each trial lands in exactly one bucket, so the tallied
iteration count equals the requested one. -/
theorem c4_theorem :
    (∀ (my_score : ℕ) (opp_scores : List ℕ),
      (classify_trial my_score opp_scores = TrialOutcome.win ↔
        ∀ s ∈ opp_scores, my_score < s) ∧
      (classify_trial my_score opp_scores = TrialOutcome.lose ↔
        ∃ s ∈ opp_scores, s < my_score) ∧
      (classify_trial my_score opp_scores = TrialOutcome.tie ↔
        (¬(∀ s ∈ opp_scores, my_score < s) ∧
          ¬∃ s ∈ opp_scores, s < my_score))) ∧
    (∀ (evalFn : List ℕ → List ℕ → ℕ) (hole_cards board : List ℕ)
      (num_opponents iterations : ℕ) (g : GlobalRng),
      (calculate_equity evalFn hole_cards board num_opponents iterations
        g).1.iterations = iterations) := by
  constructor
  · intro my_score opp_scores
    have hwin : (my_score : ℕ∞) <
        opp_scores.foldl (fun (acc : ℕ∞) (s : ℕ) => min acc (s : ℕ∞)) ⊤ ↔
        ∀ s ∈ opp_scores, my_score < s := by
      rw [lt_foldl_min]
      simp only [ENat.coe_lt_top, true_and, ENat.coe_lt_coe]
    have hlose : opp_scores.foldl
        (fun (acc : ℕ∞) (s : ℕ) => min acc (s : ℕ∞)) ⊤ <
        (my_score : ℕ∞) ↔ ∃ s ∈ opp_scores, s < my_score := by
      rw [foldl_min_lt]
      constructor
      · rintro (ht | ⟨s, hs, hx⟩)
        · exact absurd ht (by simp)
        · exact ⟨s, hs, ENat.coe_lt_coe.mp hx⟩
      · rintro ⟨s, hs, hx⟩
        exact Or.inr ⟨s, hs, ENat.coe_lt_coe.mpr hx⟩
    unfold classify_trial
    by_cases h1 : (my_score : ℕ∞) <
        opp_scores.foldl (fun (acc : ℕ∞) (s : ℕ) => min acc (s : ℕ∞)) ⊤
    · rw [if_pos h1]
      refine ⟨⟨fun _ => hwin.mp h1, fun _ => rfl⟩, ?_, ?_⟩
      · constructor
        · intro hc
          cases hc
        · rintro ⟨s, hs, hx⟩
          exact absurd (lt_trans (hwin.mp h1 s hs) hx) (lt_irrefl my_score)
      · constructor
        · intro hc
          cases hc
        · rintro ⟨hnw, _⟩
          exact absurd (hwin.mp h1) hnw
    · rw [if_neg h1]
      by_cases h2 : opp_scores.foldl
          (fun (acc : ℕ∞) (s : ℕ) => min acc (s : ℕ∞)) ⊤ <
          (my_score : ℕ∞)
      · rw [if_pos h2]
        refine ⟨?_, ⟨fun _ => hlose.mp h2, fun _ => rfl⟩, ?_⟩
        · constructor
          · intro hc
            cases hc
          · intro hw
            exact absurd (hwin.mpr hw) h1
        · constructor
          · intro hc
            cases hc
          · rintro ⟨_, hnl⟩
            exact absurd (hlose.mp h2) hnl
      · rw [if_neg h2]
        refine ⟨?_, ?_, fun _ => ⟨?_, ?_⟩, fun _ => rfl⟩
        · constructor
          · intro hc
            cases hc
          · intro hw
            exact absurd (hwin.mpr hw) h1
        · constructor
          · intro hc
            cases hc
          · intro hl
            exact absurd (hlose.mpr hl) h2
        · intro hw
          exact absurd (hwin.mpr hw) h1
        · intro hl
          exact absurd (hlose.mpr hl) h2
  · intro evalFn hole_cards board num_opponents iterations g
    unfold calculate_equity
    have h := equity_loop_total evalFn hole_cards board num_opponents
      (available_for hole_cards board) iterations 0 0 0 g
    simpa using h

/-! ## C6 -/

/-- A recorded bet-to-pot quotient is never zero: it is only defined for a
non-zero amount over a positive pot. -/
theorem betSizeFrac_ne_zero (a : PlayerAction) (r : ℚ)
    (h : a.betSizeFrac = some r) : r ≠ 0 := by
  unfold PlayerAction.betSizeFrac at h
  rcases ha : a.amount with _ | amt <;> rcases hp : a.pot_size with _ | pot <;>
    rw [ha, hp] at h
  · exact absurd h (by simp)
  · exact absurd h (by simp)
  · exact absurd h (by simp)
  have h' : (if amt ≠ 0 ∧ pot ≠ 0 ∧ pot > 0 then some (amt / pot)
      else none) = some r := h
  by_cases hc : amt ≠ 0 ∧ pot ≠ 0 ∧ pot > 0
  · rw [if_pos hc] at h'
    obtain ⟨h1, _, h3⟩ := hc
    have hr : amt / pot = r := Option.some.inj h'
    rw [← hr]
    exact div_ne_zero h1 (ne_of_gt h3)
  · rw [if_neg hc] at h'
    exact absurd h' (by simp)

/-- The code's `bet_ratio = action.bet_size_ratio or 0.5` equals the
plain default read `betSizeFrac.getD (1/2)`: a recorded quotient is never
the falsy value 0. -/
theorem bet_ratio_or_default (action : PlayerAction) :
    (match action.betSizeFrac with
      | some x => if x = 0 then (1 : ℚ)/2 else x
      | none => 1/2) = action.betSizeFrac.getD (1/2) := by
  cases hb : action.betSizeFrac with
  | none => rfl
  | some x =>
      have hx : x ≠ 0 := betSizeFrac_ne_zero action x hb
      simp [hx]

/-- C6: for every postflop CHECK, CALL, BET or RAISE — whether or not an
amount and pot were recorded — the update keeps exactly the first
`max(1, int(n·min(1/2, 1/(ratio+1))))` hands of the rank-sorted input
when the action is a BET/RAISE whose effective pot-relative ratio
(`bet_size_ratio`, defaulting to 0.5 when unrecorded) is at least 1, and
leaves the range unchanged otherwise (CHECK, CALL, and bets with ratio
below 1, including amountless bets). -/
theorem c6_theorem (current_range : List String) (action : PlayerAction)
    (board : Option (List String)) (profile : Option PlayerProfile)
    (h1 : action.action_type = ActionType.check ∨
      action.action_type = ActionType.call ∨
      action.action_type = ActionType.bet ∨
      action.action_type = ActionType.raise_) :
    (update_postflop_range current_range action board profile).hands =
      if (action.action_type = ActionType.bet ∨
          action.action_type = ActionType.raise_) ∧
          1 ≤ action.betSizeFrac.getD (1/2) then
        (sort_by_rank current_range).take
          (max 1 (⌊(current_range.length : ℚ) *
            min (1/2) (1 / (action.betSizeFrac.getD (1/2) + 1))⌋).toNat)
      else current_range := by
  rcases h1 with h1 | h1 | h1 | h1
  · simp [update_postflop_range, h1]
  · simp [update_postflop_range, h1]
  · simp only [update_postflop_range, h1]
    rw [bet_ratio_or_default action]
    by_cases hr1 : (1 : ℚ) ≤ action.betSizeFrac.getD 2⁻¹
    · simp [hr1, filter_top_percentage, ge_iff_le]
    · simp [hr1, ge_iff_le]
  · simp only [update_postflop_range, h1]
    rw [bet_ratio_or_default action]
    by_cases hr1 : (1 : ℚ) ≤ action.betSizeFrac.getD 2⁻¹
    · simp [hr1, filter_top_percentage, ge_iff_le]
    · simp [hr1, ge_iff_le]

/-- C6 witness: a concrete double-pot bet keeps the top 1/3 (rounded to
one hand) of a four-hand range, and a plain CHECK with no recorded
amount (ratio `None`) leaves a range unchanged. -/
theorem c6_witness :
    (update_postflop_range ["72o", "AA", "KK", "QQ"]
        ⟨Street.flop, ActionType.bet, some 200, some 100⟩ none
        none).hands = ["AA"] ∧
    (update_postflop_range ["72o", "AA"]
        ⟨Street.flop, ActionType.check, none, none⟩ none
        none).hands = ["72o", "AA"] := by
  constructor
  · have h := c6_theorem ["72o", "AA", "KK", "QQ"]
      ⟨Street.flop, ActionType.bet, some 200, some 100⟩ none none
      (Or.inr (Or.inr (Or.inl rfl)))
    rw [h]
    norm_num [PlayerAction.betSizeFrac]
    decide
  · have h := c6_theorem ["72o", "AA"]
      ⟨Street.flop, ActionType.check, none, none⟩ none none (Or.inl rfl)
    rw [h, if_neg (by simp)]

/-! ## C2 -/

/-- A trial classifies as a win when the hero score is strictly below
every opponent score. -/
theorem classify_trial_win_of (my : ℕ) (l : List ℕ)
    (h : ∀ s ∈ l, my < s) : classify_trial my l = TrialOutcome.win := by
  unfold classify_trial
  rw [if_pos]
  rw [lt_foldl_min]
  exact ⟨ENat.coe_lt_top my, fun s hs => ENat.coe_lt_coe.mpr (h s hs)⟩

/-- A trial classifies as a loss when some opponent score is strictly
below the hero score. -/
theorem classify_trial_lose_of (my : ℕ) (l : List ℕ)
    (h : ∃ s ∈ l, s < my) : classify_trial my l = TrialOutcome.lose := by
  have h1 : ¬ ((my : ℕ∞) <
      l.foldl (fun (acc : ℕ∞) (s : ℕ) => min acc (s : ℕ∞)) ⊤) := by
    rw [lt_foldl_min]
    rintro ⟨-, hall⟩
    obtain ⟨s, hs, hx⟩ := h
    have := ENat.coe_lt_coe.mp (hall s hs)
    omega
  have h2 : l.foldl (fun (acc : ℕ∞) (s : ℕ) => min acc (s : ℕ∞)) ⊤ <
      (my : ℕ∞) := by
    rw [foldl_min_lt]
    obtain ⟨s, hs, hx⟩ := h
    exact Or.inr ⟨s, hs, ENat.coe_lt_coe.mpr hx⟩
  unfold classify_trial
  rw [if_neg h1, if_pos h2]

/-- The visible counters after the loop depend on the generator only
through the shuffle outcomes it produces on the consumed window. -/
theorem equity_loop_window (evalFn : List ℕ → List ℕ → ℕ)
    (hc bd : List ℕ) (k : ℕ) (av : List ℕ) :
    ∀ (n : ℕ) (acc : ℕ × ℕ × ℕ) (g g' : GlobalRng),
      (∀ i, i < n → ∀ xs, g.shuffle (g.t + i) xs =
        g'.shuffle (g'.t + i) xs) →
      (equity_loop evalFn hc bd k av n acc g).1 =
        (equity_loop evalFn hc bd k av n acc g').1
  | 0, _, _, _, _ => rfl
  | n + 1, acc, g, g', h => by
      obtain ⟨w, t, l⟩ := acc
      have h0 : g.shuffle g.t av = g'.shuffle g'.t av := by
        have hh := h 0 (Nat.succ_pos n) av
        simpa using hh
      simp only [equity_loop, rng_shuffle, h0]
      exact equity_loop_window evalFn hc bd k av n _
        ⟨g.shuffle, g.pick, g.t + 1⟩ ⟨g'.shuffle, g'.pick, g'.t + 1⟩
        (fun i hi xs => by
          have hh := h (i + 1) (by omega) xs
          show g.shuffle (g.t + 1 + i) xs = g'.shuffle (g'.t + 1 + i) xs
          have e1 : g.t + 1 + i = g.t + (i + 1) := by omega
          have e2 : g'.t + 1 + i = g'.t + (i + 1) := by omega
          rw [e1, e2]
          exact hh)

/-- When the generator produces the same deck `D` on the whole consumed
window, the loop tallies all `n` trials into the single bucket chosen by
the classification of `D`, and advances the generator step by `n`. -/
theorem equity_loop_const (evalFn : List ℕ → List ℕ → ℕ)
    (hc bd : List ℕ) (k : ℕ) (av D : List ℕ) :
    ∀ (n w t l : ℕ) (g : GlobalRng),
      (∀ i, i < n → g.shuffle (g.t + i) av = D) →
      equity_loop evalFn hc bd k av n (w, t, l) g =
        ((w + (if classify_trial (trial_scores evalFn hc bd k D).1
              (trial_scores evalFn hc bd k D).2 = TrialOutcome.win
            then n else 0),
          t + (if classify_trial (trial_scores evalFn hc bd k D).1
              (trial_scores evalFn hc bd k D).2 = TrialOutcome.tie
            then n else 0),
          l + (if classify_trial (trial_scores evalFn hc bd k D).1
              (trial_scores evalFn hc bd k D).2 = TrialOutcome.lose
            then n else 0)),
          ⟨g.shuffle, g.pick, g.t + n⟩)
  | 0, w, t, l, g, _ => by simp [equity_loop]
  | n + 1, w, t, l, g, h => by
      have h0 : g.shuffle g.t av = D := by
        have hh := h 0 (Nat.succ_pos n)
        simpa using hh
      simp only [equity_loop, rng_shuffle, h0]
      rw [equity_loop_const evalFn hc bd k av D n _ _ _
        ⟨g.shuffle, g.pick, g.t + 1⟩
        (fun i hi => by
          have hh := h (i + 1) (by omega)
          show g.shuffle (g.t + 1 + i) av = D
          have e1 : g.t + 1 + i = g.t + (i + 1) := by omega
          rw [e1]
          exact hh)]
      cases hcl : classify_trial (trial_scores evalFn hc bd k D).1
          (trial_scores evalFn hc bd k D).2 <;>
        simp only [hcl] <;>
        simp [Prod.mk.injEq, GlobalRng.mk.injEq] <;>
        omega

/-- First 5000-trial call on the example state: the identity shuffles make
every trial a hero win, so the reported equity is exactly 100, and the
generator has advanced by 5000 steps. -/
theorem ex_first_call :
    calculate_equity ex_eval [48, 45] [0, 22, 43] 1 5000 ex_rng =
      ({ win := 100, tie := 0, lose := 0, iterations := 5000 },
        ⟨ex_rng.shuffle, ex_rng.pick, 5000⟩) := by
  have hts : trial_scores ex_eval [48, 45] [0, 22, 43] 1
      (available_for [48, 45] [0, 22, 43]) = (10, [20]) := by decide
  have hcl : classify_trial (trial_scores ex_eval [48, 45] [0, 22, 43] 1
      (available_for [48, 45] [0, 22, 43])).1
      (trial_scores ex_eval [48, 45] [0, 22, 43] 1
        (available_for [48, 45] [0, 22, 43])).2 = TrialOutcome.win := by
    rw [hts]
    exact classify_trial_win_of 10 [20] (by simp)
  have hwindow : ∀ i, i < 5000 → ex_rng.shuffle (ex_rng.t + i)
      (available_for [48, 45] [0, 22, 43]) =
      available_for [48, 45] [0, 22, 43] := by
    intro i hi
    simp only [ex_rng]
    rw [if_pos (by omega : 0 + i < 5000)]
  have hloop : equity_loop ex_eval [48, 45] [0, 22, 43] 1
      (available_for [48, 45] [0, 22, 43]) 5000 (0, 0, 0) ex_rng =
      ((5000, 0, 0), ⟨ex_rng.shuffle, ex_rng.pick, 5000⟩) := by
    rw [equity_loop_const ex_eval [48, 45] [0, 22, 43] 1
      (available_for [48, 45] [0, 22, 43])
      (available_for [48, 45] [0, 22, 43]) 5000 0 0 0 ex_rng hwindow, hcl]
    simp [ex_rng]
  simp only [calculate_equity, hloop]
  simp only [Prod.mk.injEq, EquityResult.mk.injEq]
  norm_num

/-- Second 5000-trial call, starting where the first left the global
generator: the reversing shuffles make every trial a hero loss, so the
reported equity is exactly 0. -/
theorem ex_second_call :
    calculate_equity ex_eval [48, 45] [0, 22, 43] 1 5000
        ⟨ex_rng.shuffle, ex_rng.pick, 5000⟩ =
      ({ win := 0, tie := 0, lose := 100, iterations := 5000 },
        ⟨ex_rng.shuffle, ex_rng.pick, 10000⟩) := by
  have hts : trial_scores ex_eval [48, 45] [0, 22, 43] 1
      (available_for [48, 45] [0, 22, 43]).reverse = (10, [1]) := by decide
  have hcl : classify_trial (trial_scores ex_eval [48, 45] [0, 22, 43] 1
      (available_for [48, 45] [0, 22, 43]).reverse).1
      (trial_scores ex_eval [48, 45] [0, 22, 43] 1
        (available_for [48, 45] [0, 22, 43]).reverse).2 =
      TrialOutcome.lose := by
    rw [hts]
    exact classify_trial_lose_of 10 [1] ⟨1, by simp, by omega⟩
  have hwindow : ∀ i, i < 5000 →
      (⟨ex_rng.shuffle, ex_rng.pick, 5000⟩ : GlobalRng).shuffle
        ((⟨ex_rng.shuffle, ex_rng.pick, 5000⟩ : GlobalRng).t + i)
        (available_for [48, 45] [0, 22, 43]) =
      (available_for [48, 45] [0, 22, 43]).reverse := by
    intro i hi
    simp only [ex_rng]
    rw [if_neg (by omega : ¬ 5000 + i < 5000)]
  have hloop : equity_loop ex_eval [48, 45] [0, 22, 43] 1
      (available_for [48, 45] [0, 22, 43]) 5000 (0, 0, 0)
      ⟨ex_rng.shuffle, ex_rng.pick, 5000⟩ =
      ((0, 0, 5000), ⟨ex_rng.shuffle, ex_rng.pick, 10000⟩) := by
    rw [equity_loop_const ex_eval [48, 45] [0, 22, 43] 1
      (available_for [48, 45] [0, 22, 43])
      (available_for [48, 45] [0, 22, 43]).reverse 5000 0 0 0
      ⟨ex_rng.shuffle, ex_rng.pick, 5000⟩ hwindow, hcl]
    simp [ex_rng]
  simp only [calculate_equity, hloop]
  simp only [Prod.mk.injEq, EquityResult.mk.injEq]
  norm_num

/-- C2 counterexample: two successive `get_recommendation` calls with the
identical `GameState` and profile return different recommendations — the
output depends on the position of the hidden module-level generator, and
the API offers no seed or RNG parameter that could make the second call
reproduce the first. -/
theorem c2_counterexample :
    (get_recommendation ex_eval ex_state none ex_rng).1.primary_action =
        RecommendedAction.bet_large ∧
    (get_recommendation ex_eval ex_state none
        (get_recommendation ex_eval ex_state none ex_rng).2).1.primary_action
      = RecommendedAction.check := by
  have hmap1 : ex_state.my_hand.map card_new = [48, 45] := by decide
  have hmap2 : ex_state.board.map card_new = [0, 22, 43] := by decide
  have hnum : ex_state.num_opponents = 1 := rfl
  have hnotpre : ¬ (ex_state.is_preflop = true) := by decide
  have hcall : ¬ (ex_state.to_call > 0) := by
    show ¬ ((0 : ℚ) > 0)
    norm_num
  have e1 : get_recommendation ex_eval ex_state none ex_rng =
      (get_betting_recommendation ex_state 100
        (analyze_board_texture ex_state.board) none,
       ⟨ex_rng.shuffle, ex_rng.pick, 5000⟩) := by
    unfold get_recommendation
    rw [if_neg hnotpre]
    simp only [get_postflop_recommendation, hmap1, hmap2, hnum,
      ex_first_call]
    rw [if_neg hcall]
  have e2 : get_recommendation ex_eval ex_state none
      ⟨ex_rng.shuffle, ex_rng.pick, 5000⟩ =
      (get_betting_recommendation ex_state 0
        (analyze_board_texture ex_state.board) none,
       ⟨ex_rng.shuffle, ex_rng.pick, 10000⟩) := by
    unfold get_recommendation
    rw [if_neg hnotpre]
    simp only [get_postflop_recommendation, hmap1, hmap2, hnum,
      ex_second_call]
    rw [if_neg hcall]
  have p1 : (get_recommendation ex_eval ex_state none ex_rng).1 =
      get_betting_recommendation ex_state 100
        (analyze_board_texture ex_state.board) none := by
    rw [e1]
  have p2 : (get_recommendation ex_eval ex_state none ex_rng).2 =
      (⟨ex_rng.shuffle, ex_rng.pick, 5000⟩ : GlobalRng) := by
    rw [e1]
  have q1 : (get_recommendation ex_eval ex_state none
      (⟨ex_rng.shuffle, ex_rng.pick, 5000⟩ : GlobalRng)).1 =
      get_betting_recommendation ex_state 0
        (analyze_board_texture ex_state.board) none := by
    rw [e2]
  constructor
  · rw [p1]
    unfold get_betting_recommendation
    rw [if_pos (by norm_num : (100 : ℚ) > 70)]
  · rw [p2, q1]
    unfold get_betting_recommendation
    rw [if_neg (by norm_num : ¬ (0 : ℚ) > 70),
      if_neg (by norm_num : ¬ (0 : ℚ) > 55),
      if_neg (by norm_num : ¬ (0 : ℚ) > 35)]

/-- C2 (amended): modelling the module-level global generator as an
explicit state, the recommendation is a pure function of the `GameState`,
the profile and the shuffle outcomes on the consumed window of at most
5000 steps — two generator states that agree on that window (in
particular, the same state twice) yield the identical recommendation, and
the preflop branch consumes no randomness at all. -/
theorem c2_theorem (evalFn : List ℕ → List ℕ → ℕ) (gs : GameState)
    (p : Option PlayerProfile) (g g' : GlobalRng)
    (h : ∀ i, i < 5000 → ∀ xs, g.shuffle (g.t + i) xs =
      g'.shuffle (g'.t + i) xs) :
    (get_recommendation evalFn gs p g).1 =
      (get_recommendation evalFn gs p g').1 := by
  have hl := equity_loop_window evalFn (gs.my_hand.map card_new)
    (gs.board.map card_new) gs.num_opponents
    (available_for (gs.my_hand.map card_new) (gs.board.map card_new))
    5000 (0, 0, 0) g g' h
  have hw : (calculate_equity evalFn (gs.my_hand.map card_new)
      (gs.board.map card_new) gs.num_opponents 5000 g).1 =
      (calculate_equity evalFn (gs.my_hand.map card_new)
        (gs.board.map card_new) gs.num_opponents 5000 g').1 := by
    simp only [calculate_equity, hl]
  unfold get_recommendation
  by_cases hpre : gs.is_preflop = true
  · rw [if_pos hpre, if_pos hpre]
  · rw [if_neg hpre, if_neg hpre]
    simp only [get_postflop_recommendation]
    by_cases hc : gs.to_call > 0
    · rw [if_pos hc, if_pos hc]
      simp only [hw]
    · rw [if_neg hc, if_neg hc]
      simp only [hw]

/-- C2 witness: the amended determinism theorem applied to two distinct
generator states that agree on the consumed window. -/
theorem c2_witness :
    (get_recommendation ex_eval ex_state none ex_rng).1 =
      (get_recommendation ex_eval ex_state none
        ⟨fun _ xs => xs, fun _ => 0, 0⟩).1 :=
  c2_theorem ex_eval ex_state none ex_rng ⟨fun _ xs => xs, fun _ => 0, 0⟩
    (by
      intro i hi xs
      simp only [ex_rng]
      rw [if_pos (by omega : 0 + i < 5000)])
